import Mathlib

set_option linter.unusedSectionVars false
set_option linter.unusedVariables false

/-!
# Verification of the Sigmabus PoC (arnaucube/sigmabus-poc)

A shallow embedding of the repository's core: the Poseidon Fiat-Shamir
transcript (`src/transcript.rs`), the GenZK relation circuit
(`src/circuits.rs`), and the Setup/Prove/Verify orchestration
(`src/sigmabus.rs`, `src/lib.rs`).

External primitives (the Poseidon permutation itself, curve arithmetic,
and the Groth16 backend) are abstracted as parameters, exactly as the
specification declares them out of scope.  The duplex-sponge layer of
`ark_crypto_primitives::sponge::poseidon::PoseidonSponge` is embedded
faithfully (state vector, absorb/squeeze indices, mode switching), with
the round permutation kept abstract as `PoseidonConfig.perm`.

Rust panics (`unwrap` on `None`/`Err`) are modelled by `Option`: a
function returns `none` exactly when the Rust code would abort.
-/

/-- Duplex sponge phase, mirroring `DuplexSpongeMode` of
ark-crypto-primitives (`Absorbing { next_absorb_index }` /
`Squeezing { next_squeeze_index }`). -/
inductive DuplexSpongeMode where
  | absorbing (nextAbsorbIndex : Nat)
  | squeezing (nextSqueezeIndex : Nat)
deriving DecidableEq

/-- Poseidon sponge parameters.  The real `PoseidonConfig` carries round
numbers, round constants and the MDS matrix, which together determine the
permutation; all of that is out of scope, so the embedding keeps `rate`,
`capacity` and the induced permutation `perm` over the state vector. -/
structure PoseidonConfig (F : Type) where
  rate : Nat
  capacity : Nat
  perm : List F → List F

/-- `PoseidonSponge` from ark-crypto-primitives: parameters, state vector,
and the duplex mode. -/
structure PoseidonSponge (F : Type) where
  parameters : PoseidonConfig F
  state : List F
  mode : DuplexSpongeMode

section Sponge

variable {F : Type} [CommRing F]

/-- `PoseidonSponge::new`: all-zero state of length `rate + capacity`, in
absorbing mode with `next_absorb_index = 0`. -/
def PoseidonSponge.new (cfg : PoseidonConfig F) : PoseidonSponge F :=
  ⟨cfg, List.replicate (cfg.rate + cfg.capacity) 0, .absorbing 0⟩

/-- `state[pos + i] += elems[i]` for each element of `elems`, as in the
absorb loop (`self.state[self.parameters.capacity + i + rate_start_index]
+= element`). -/
def addChunk : List F → Nat → List F → List F
  | st, _, [] => st
  | st, pos, e :: es => addChunk (st.set pos (st.getD pos 0 + e)) (pos + 1) es

/-- `PoseidonSponge::absorb_internal`.  The Rust loop is driven here by
fuel (`elems.length + 1` at the call site); with `rate ≥ 1` — true of
every real Poseidon configuration — each pass consumes at least one
element, so the fuel never runs out and the zero-fuel branch (which the
Rust code reaches only as an infinite loop when `rate = 0`) is inert. -/
def absorbInternalAux (cfg : PoseidonConfig F) :
    Nat → List F → Nat → List F → List F × DuplexSpongeMode
  | 0, st, start, _ => (st, .absorbing start)
  | fuel + 1, st, start, elems =>
    if elems.length ≤ cfg.rate - start then
      (addChunk st (cfg.capacity + start) elems, .absorbing (start + elems.length))
    else
      absorbInternalAux cfg fuel
        (cfg.perm (addChunk st (cfg.capacity + start) (elems.take (cfg.rate - start))))
        0 (elems.drop (cfg.rate - start))

/-- `PoseidonSponge::absorb` on a list of field elements (the
`to_sponge_field_elements` encoding of a field element is itself, and of a
vector of field elements is the list of its entries). -/
def PoseidonSponge.absorb (sp : PoseidonSponge F) (input : List F) : PoseidonSponge F :=
  if input.isEmpty then sp
  else
    match sp.mode with
    | .absorbing next =>
      let idx := if next = sp.parameters.rate then 0 else next
      let st := if next = sp.parameters.rate then sp.parameters.perm sp.state else sp.state
      let res := absorbInternalAux sp.parameters (input.length + 1) st idx input
      ⟨sp.parameters, res.1, res.2⟩
    | .squeezing _ =>
      let res := absorbInternalAux sp.parameters (input.length + 1)
        (sp.parameters.perm sp.state) 0 input
      ⟨sp.parameters, res.1, res.2⟩

/-- `PoseidonSponge::squeeze_internal`, fuel-driven like
`absorbInternalAux`.  Returns (squeezed output, final state, final mode).
The Rust code permutes between chunks unless the remaining output length
equals the rate (`if output_remaining.len() != self.parameters.rate`). -/
def squeezeInternalAux (cfg : PoseidonConfig F) :
    Nat → List F → Nat → Nat → List F × List F × DuplexSpongeMode
  | 0, st, start, _ => ([], st, .squeezing start)
  | fuel + 1, st, start, n =>
    if n ≤ cfg.rate - start then
      ((st.drop (cfg.capacity + start)).take n, st, .squeezing (start + n))
    else
      let k := cfg.rate - start
      let out1 := (st.drop (cfg.capacity + start)).take k
      let st1 := if n ≠ cfg.rate then cfg.perm st else st
      let rest := squeezeInternalAux cfg fuel st1 0 (n - k)
      (out1 ++ rest.1, rest.2.1, rest.2.2)

/-- `PoseidonSponge::squeeze_field_elements` (via
`squeeze_native_field_elements`): permute when coming from absorbing mode
or when the squeeze index reached the rate, then squeeze `n` elements. -/
def PoseidonSponge.squeezeFieldElements (sp : PoseidonSponge F) (n : Nat) :
    List F × PoseidonSponge F :=
  match sp.mode with
  | .absorbing _ =>
    let res := squeezeInternalAux sp.parameters (n + 1) (sp.parameters.perm sp.state) 0 n
    (res.1, ⟨sp.parameters, res.2.1, res.2.2⟩)
  | .squeezing next =>
    let idx := if next = sp.parameters.rate then 0 else next
    let st := if next = sp.parameters.rate then sp.parameters.perm sp.state else sp.state
    let res := squeezeInternalAux sp.parameters (n + 1) st idx n
    (res.1, ⟨sp.parameters, res.2.1, res.2.2⟩)

/-- `PoseidonTranscript::get_challenge`: squeeze one field element, absorb
it back, and return it.  `headD 0` models the Rust `c[0]` indexing; the
squeezed vector has length exactly one for every real configuration
(`rate ≥ 1`). -/
def PoseidonSponge.getChallenge (sp : PoseidonSponge F) : F × PoseidonSponge F :=
  let res := sp.squeezeFieldElements 1
  let c := res.1.headD 0
  (c, res.2.absorb [c])

/-- `CRH::<F>::evaluate` of the Poseidon CRH: a fresh sponge over the same
config absorbs the whole input in one call and squeezes one element. -/
def crh (cfg : PoseidonConfig F) (input : List F) : F :=
  ((((PoseidonSponge.new cfg).absorb input).squeezeFieldElements 1).1).headD 0

end Sponge

/-! ## Little-endian byte serialization used by `prepare_point`

`into_bigint().to_bytes_le()` yields the canonical value of a prime-field
element in little-endian bytes (a fixed-width encoding whose trailing
zero bytes do not affect the value), and `from_le_bytes_mod_order`
reinterprets such bytes modulo the target field's modulus. -/

/-- Value of a little-endian byte string. -/
def bytesLEToNat : List Nat → Nat
  | [] => 0
  | b :: bs => b + 256 * bytesLEToNat bs

/-- Little-endian base-256 digits of `n` (fuel-driven; `fuel = n`
suffices). -/
def natToBytesLEAux : Nat → Nat → List Nat
  | 0, _ => []
  | _ + 1, 0 => []
  | fuel + 1, n => n % 256 :: natToBytesLEAux fuel (n / 256)

/-- `to_bytes_le` of the canonical representative, minus trailing zero
padding (which is value-irrelevant for `from_le_bytes_mod_order`). -/
def natToBytesLE (n : Nat) : List Nat := natToBytesLEAux n n

/-- The coordinate encoding of `prepare_point`: take the base-prime-field
representative of an affine coordinate, serialize its bigint as
little-endian bytes, and reinterpret them modulo the scalar-field
modulus (`ScalarField::from_le_bytes_mod_order`). -/
def coordToScalar (pS : Nat) {pB : Nat} (b : ZMod pB) : ZMod pS :=
  ((bytesLEToNat (natToBytesLE (ZMod.val b)) : Nat) : ZMod pS)

section Transcript

variable {F : Type} [CommRing F] {Cg Bf : Type}

/-- `prepare_point`: affine coordinates of `p` (`none` models the
`xy().unwrap()` panic at the point at infinity), each mapped into the
scalar field by the coordinate encoding `enc`.  `xy` stands for
`into_affine` followed by `xy()`, and `enc` for the
base-prime-field/bigint/little-endian-bytes chain, both provided by the
external curve/field layer. -/
def preparePoint (xy : Cg → Option (Bf × Bf)) (enc : Bf → F) (p : Cg) :
    Option (List F) :=
  match xy p with
  | none => none
  | some q => some [enc q.1, enc q.2]

/-- `PoseidonTranscript::absorb_point`: absorb the two-element encoding of
the point; `none` models the panic on the point at infinity. -/
def PoseidonSponge.absorbPoint (xy : Cg → Option (Bf × Bf)) (enc : Bf → F)
    (sp : PoseidonSponge F) (p : Cg) : Option (PoseidonSponge F) :=
  match preparePoint xy enc p with
  | none => none
  | some v => some (sp.absorb v)

/-- The fixed Fiat-Shamir sequence shared by prover and verifier:
`absorb(cm)`, `absorb_point(R)`, `absorb(r_h)`, `get_challenge()`. -/
def transcriptChallenge (xy : Cg → Option (Bf × Bf)) (enc : Bf → F)
    (t : PoseidonSponge F) (cm : F) (R : Cg) (r_h : F) :
    Option (F × PoseidonSponge F) :=
  match (t.absorb [cm]).absorbPoint xy enc R with
  | none => none
  | some t2 => some ((t2.absorb [r_h]).getChallenge)

/-- The challenge produced by the Fiat-Shamir sequence, forgetting the
final sponge state. -/
def reDerivedChallenge (xy : Cg → Option (Bf × Bf)) (enc : Bf → F)
    (t : PoseidonSponge F) (cm : F) (R : Cg) (r_h : F) : Option F :=
  match transcriptChallenge xy enc t cm R r_h with
  | none => none
  | some z => some z.1

end Transcript

/-! ## The GenZK relation circuit (`src/circuits.rs`)

`generate_constraints` allocates the four public inputs `cm, s, r_h, c`
(in this order), then the witnesses `x, r, o_h` and the CRH parameters,
and calls `check`, which enforces three equality constraints.  The
constraint-system machinery itself is external; the embedding records the
allocation order and the enforced equalities, with the in-circuit
`CRHGadget::evaluate` mapped to the same `crh` function it computes
bit-for-bit (the spec's identical-hash requirement on the external
gadget). -/

/-- `GenZKCircuit` from `src/circuits.rs`. -/
structure GenZKCircuit (F : Type) where
  poseidonConfig : PoseidonConfig F
  cm : F
  s : F
  r_h : F
  c : F
  x : F
  r : F
  o_h : F

/-- What `generate_constraints` contributes to the constraint system:
instance (public-input) assignments in allocation order, witness
assignments in allocation order, and the enforced equalities as evaluated
pairs. -/
structure ConstraintTrace (F : Type) where
  publicInputs : List F
  witnessInputs : List F
  constraints : List (F × F)

section Circuits

variable {F : Type} [CommRing F]

/-- `GenZKCircuit::check`: the three `enforce_equal` constraints, as
(lhs, rhs) pairs: `Hash1(x) = cm`, `Hash2(r, o_h) = r_h`,
`s = r + c * x`. -/
def GenZKCircuit.check (cfg : PoseidonConfig F) (cm s r_h c x r o_h : F) :
    List (F × F) :=
  [(crh cfg [x], cm), (crh cfg [r, o_h], r_h), (s, r + c * x)]

/-- `GenZKCircuit::generate_constraints`: public inputs `cm, s, r_h, c`
allocated in this order, witnesses `x, r, o_h`, constraints from
`check`. -/
def GenZKCircuit.generateConstraints (circ : GenZKCircuit F) : ConstraintTrace F :=
  ⟨[circ.cm, circ.s, circ.r_h, circ.c],
   [circ.x, circ.r, circ.o_h],
   GenZKCircuit.check circ.poseidonConfig circ.cm circ.s circ.r_h circ.c circ.x circ.r circ.o_h⟩

/-- A constraint trace is satisfied when every enforced equality holds. -/
def ConstraintTrace.satisfied [DecidableEq F] (tr : ConstraintTrace F) : Bool :=
  tr.constraints.all fun pr => decide (pr.1 = pr.2)

/-- The GenZK relation in the specification's words: there exist private
`(x, r, o_h)` such that `cm = Hash1(x)`, `r_h = Hash2(r, o_h)`, and
`s = r + c * x`, where `Hash1`/`Hash2` are the Poseidon CRH over one and
two field elements. -/
def genZKRelationSpec (cfg : PoseidonConfig F) (cm s r_h c x r o_h : F) : Prop :=
  cm = crh cfg [x] ∧ r_h = crh cfg [r, o_h] ∧ s = r + c * x

end Circuits

/-! ## The Sigmabus protocol (`src/lib.rs`, `src/sigmabus.rs`) -/

/-- The typed error enum from `src/lib.rs`. -/
inductive Error where
  | sigmaFail
  | genZKFail
deriving DecidableEq

/-- Decidable equality for `Except`, so that runs of the protocol can be
checked on concrete inputs. -/
instance {e a : Type} [DecidableEq e] [DecidableEq a] : DecidableEq (Except e a) :=
  fun u v =>
    match u, v with
    | Except.ok x, Except.ok y =>
      if h : x = y then isTrue (by rw [h]) else isFalse (fun hc => h (by cases hc; rfl))
    | Except.error x, Except.error y =>
      if h : x = y then isTrue (by rw [h]) else isFalse (fun hc => h (by cases hc; rfl))
    | Except.ok _, Except.error _ => isFalse (fun hc => Except.noConfusion hc)
    | Except.error _, Except.ok _ => isFalse (fun hc => Except.noConfusion hc)

/-- `SigmaProof`: the Sigma-protocol values `{s, R, r_h}`. -/
structure SigmaProof (F Cg : Type) where
  s : F
  R : Cg
  r_h : F
deriving DecidableEq

/-- `Proof`: `{cm, sigma_proof, zkproof}`; the Groth16 proof object is the
abstract `Zk`. -/
structure Proof (F Cg Zk : Type) where
  cm : F
  sigmaProof : SigmaProof F Cg
  zkproof : Zk
deriving DecidableEq

/-- `Params`: `{poseidon_config, pk, vk}` over abstract Groth16 key
types. -/
structure Params (F Pk Vk : Type) where
  poseidonConfig : PoseidonConfig F
  pk : Pk
  vk : Vk

/-- The external primitive providers the orchestration depends on: the
group generator `G`, affine-coordinate extraction `xy` (`none` at the
point at infinity), the coordinate encoding `enc`, and the Groth16
backend entry points (`circuit_specific_setup`, `prove`, `verify`), with
`none` modelling a backend `Err` (which the Rust code unwraps, i.e.
aborts on). -/
structure SigmabusCtx (F Cg Bf Pk Vk Zk Rand : Type) where
  G : Cg
  xy : Cg → Option (Bf × Bf)
  enc : Bf → F
  gsetup : GenZKCircuit F → Option (Pk × Vk)
  gprove : Pk → GenZKCircuit F → Rand → Option Zk
  gverify : Vk → List F → Zk → Option Bool

section Protocol

variable {F Cg Bf Pk Vk Zk Rand : Type}
variable [CommRing F] [DecidableEq F] [AddCommGroup Cg] [DecidableEq Cg] [Module F Cg]

/-- The public-input vector built by `Sigmabus::verify` (line 148):
`[proof.cm, proof.sigma_proof.s, proof.sigma_proof.r_h, c]`. -/
def sigmabusPublicInput (proof : Proof F Cg Zk) (c : F) : List F :=
  [proof.cm, proof.sigmaProof.s, proof.sigmaProof.r_h, c]

/-- `Sigmabus::setup`: build the all-zero `GenZKCircuit` (only the gate
shape matters) and run the backend's circuit-specific key generation. -/
def Sigmabus.setup (ctx : SigmabusCtx F Cg Bf Pk Vk Zk Rand)
    (cfg : PoseidonConfig F) : Option (Params F Pk Vk) :=
  let circuit : GenZKCircuit F := ⟨cfg, 0, 0, 0, 0, 0, 0, 0⟩
  match ctx.gsetup circuit with
  | none => none
  | some pkvk => some ⟨cfg, pkvk.1, pkvk.2⟩

/-- `Sigmabus::prove`.  The sampled randomness `r, o_h` (drawn from the
caller's RNG in Rust) and the backend-proving randomness `rho` are
explicit inputs; `t` is the caller-supplied transcript.  `none` models
the two aborts: `prepare_point` panicking when `R` is the point at
infinity, and `Groth16::prove(..).unwrap()`. -/
def Sigmabus.prove (ctx : SigmabusCtx F Cg Bf Pk Vk Zk Rand)
    (params : Params F Pk Vk) (t : PoseidonSponge F)
    (x r o_h : F) (rho : Rand) : Option (Except Error (Proof F Cg Zk)) :=
  let cm := crh params.poseidonConfig [x]
  let t1 := t.absorb [cm]
  let R := r • ctx.G
  let r_h := crh params.poseidonConfig [r, o_h]
  match t1.absorbPoint ctx.xy ctx.enc R with
  | none => none
  | some t2 =>
    let t3 := t2.absorb [r_h]
    let c := (t3.getChallenge).1
    let s := r + c * x
    let circuit : GenZKCircuit F := ⟨params.poseidonConfig, cm, s, r_h, c, x, r, o_h⟩
    match ctx.gprove params.pk circuit rho with
    | none => none
    | some zkproof => some (Except.ok ⟨cm, ⟨s, R, r_h⟩, zkproof⟩)

/-- `Sigmabus::verify`: recompute `lhs = s·G`, re-run the transcript on
the proof's public fields to re-derive `c`, check the Sigma linear
equation (`SigmaFail` on mismatch), then check the Groth16 proof against
`[cm, s, r_h, c]` (`GenZKFail` when the backend answers `false`).  `none`
models the aborts: `prepare_point` at the point at infinity and
`Groth16::verify(..).unwrap()`. -/
def Sigmabus.verify (ctx : SigmabusCtx F Cg Bf Pk Vk Zk Rand)
    (params : Params F Pk Vk) (t : PoseidonSponge F)
    (proof : Proof F Cg Zk) (X : Cg) : Option (Except Error Unit) :=
  let lhs := proof.sigmaProof.s • ctx.G
  let t1 := t.absorb [proof.cm]
  match t1.absorbPoint ctx.xy ctx.enc proof.sigmaProof.R with
  | none => none
  | some t2 =>
    let t3 := t2.absorb [proof.sigmaProof.r_h]
    let c := (t3.getChallenge).1
    let rhs := proof.sigmaProof.R + c • X
    if lhs ≠ rhs then some (Except.error Error.sigmaFail)
    else
      match ctx.gverify params.vk (sigmabusPublicInput proof c) proof.zkproof with
      | none => none
      | some valid => if valid = false then some (Except.error Error.genZKFail)
        else some (Except.ok ())

end Protocol

/-! ## A concrete executable instance

A small fully concrete instantiation of the external primitives, used to
evaluate the embedding on actual inputs: scalar field `ZMod 5`, the group
`ZMod 5` acting on itself (a cyclic group of prime order with generator
`1`), base field `ZMod 7`, and a trivially complete SNARK backend. -/

namespace Inst

/-- Identity-permutation Poseidon config with rate 2, capacity 1. -/
def cfgId : PoseidonConfig (ZMod 5) := ⟨2, 1, id⟩

/-- Zero-permutation Poseidon config (every permutation output is the
all-zero state). -/
def cfgZero : PoseidonConfig (ZMod 5) := ⟨2, 1, fun _ => [0, 0, 0]⟩

/-- Generator of the concrete group. -/
def G5 : ZMod 5 := 1

/-- Affine-coordinate extraction: `none` exactly at the identity. -/
def xy5 : ZMod 5 → Option (ZMod 7 × ZMod 7) :=
  fun p => if p = 0 then none
    else some (((ZMod.val p : Nat) : ZMod 7), ((ZMod.val p : Nat) : ZMod 7))

/-- Coordinate encoding into the scalar field. -/
def enc5 : ZMod 7 → ZMod 5 := coordToScalar 5

/-- Concrete context: trivial (perfectly complete) Groth16 backend. -/
def ctx5 : SigmabusCtx (ZMod 5) (ZMod 5) (ZMod 7) Unit Unit Unit Unit :=
  ⟨G5, xy5, enc5, fun _ => some ((), ()), fun _ _ _ => some (), fun _ _ _ => some true⟩

/-- Params over the identity-permutation config. -/
def params5 : Params (ZMod 5) Unit Unit := ⟨cfgId, (), ()⟩

/-- Params over the zero-permutation config. -/
def params5zero : Params (ZMod 5) Unit Unit := ⟨cfgZero, (), ()⟩

/-- The proof produced by `Sigmabus.prove` over `cfgId` with
`x = 2, r = 1, o_h = 3` (challenge `c = 3`). -/
def w1 : Proof (ZMod 5) (ZMod 5) Unit := ⟨2, ⟨2, 1, 1⟩, ()⟩

/-- The proof produced by `Sigmabus.prove` over `cfgZero` with
`x = 1, r = 1, o_h = 0`; the zero permutation forces the re-derived
challenge to `c = 0`. -/
def cexProof : Proof (ZMod 5) (ZMod 5) Unit := ⟨0, ⟨1, 1, 0⟩, ()⟩

end Inst



/-! ## Helper lemmas -/

section SpongeLemmas

variable {F : Type} [CommRing F]

/-- `absorb_internal` always terminates in absorbing mode. -/
theorem absorbInternalAux_mode (cfg : PoseidonConfig F) :
    ∀ (fuel : Nat) (st : List F) (start : Nat) (elems : List F),
      ∃ i, (absorbInternalAux cfg fuel st start elems).2 = .absorbing i := by
  intro fuel
  induction fuel with
  | zero => intro st start elems; exact ⟨start, rfl⟩
  | succ fuel ih =>
    intro st start elems
    by_cases h : elems.length ≤ cfg.rate - start
    · exact ⟨start + elems.length, by simp [absorbInternalAux, h]⟩
    · simpa [absorbInternalAux, h] using ih _ 0 _

/-- Absorbing a nonempty input leaves the sponge in absorbing mode. -/
theorem absorb_mode (sp : PoseidonSponge F) (input : List F) (h : input ≠ []) :
    ∃ i, (sp.absorb input).mode = .absorbing i := by
  unfold PoseidonSponge.absorb
  rw [if_neg (by simpa using h)]
  cases hm : sp.mode with
  | absorbing next =>
    simpa using absorbInternalAux_mode sp.parameters (input.length + 1) _ _ input
  | squeezing next =>
    simpa using absorbInternalAux_mode sp.parameters (input.length + 1) _ 0 input

/-- `squeeze_internal` always terminates in squeezing mode. -/
theorem squeezeInternalAux_mode (cfg : PoseidonConfig F) :
    ∀ (fuel : Nat) (st : List F) (start n : Nat),
      ∃ i, (squeezeInternalAux cfg fuel st start n).2.2 = .squeezing i := by
  intro fuel
  induction fuel with
  | zero => intro st start n; exact ⟨start, rfl⟩
  | succ fuel ih =>
    intro st start n
    by_cases h : n ≤ cfg.rate - start
    · exact ⟨start + n, by simp [squeezeInternalAux, h]⟩
    · simpa [squeezeInternalAux, h] using ih _ 0 _

/-- `squeeze_field_elements` leaves the sponge in squeezing mode. -/
theorem squeezeFieldElements_mode (sp : PoseidonSponge F) (n : Nat) :
    ∃ i, (sp.squeezeFieldElements n).2.mode = .squeezing i := by
  unfold PoseidonSponge.squeezeFieldElements
  cases hm : sp.mode with
  | absorbing next =>
    simpa using squeezeInternalAux_mode sp.parameters (n + 1) _ 0 n
  | squeezing next =>
    simpa using squeezeInternalAux_mode sp.parameters (n + 1) _ _ n

/-- With a positive rate and a well-formed state, a single-element squeeze
returns exactly one field element (core step). -/
theorem squeezeInternalAux_one_length (cfg : PoseidonConfig F)
    (hrate : 0 < cfg.rate) (hperm : ∀ l, (cfg.perm l).length = l.length) :
    ∀ (st : List F) (start : Nat), st.length = cfg.capacity + cfg.rate →
      (squeezeInternalAux cfg 2 st start 1).1.length = 1 := by
  intro st start hst
  by_cases h : 1 ≤ cfg.rate - start
  · simp only [squeezeInternalAux, if_pos h, List.length_take, List.length_drop, hst]
    omega
  · have hk : cfg.rate - start = 0 := by omega
    have hlen : (if 1 ≠ cfg.rate then cfg.perm st else st).length
        = cfg.capacity + cfg.rate := by
      by_cases h1 : 1 ≠ cfg.rate
      · rw [if_pos h1, hperm, hst]
      · rw [if_neg h1, hst]
    simp only [squeezeInternalAux, if_neg h, hk, Nat.sub_zero, List.take_zero]
    rw [if_pos (by omega : (1 : Nat) ≤ cfg.rate)]
    rw [if_neg (by omega : ¬ (1 : Nat) ≤ 0)]
    simp only [List.nil_append, List.length_take, List.length_drop, hlen]
    omega

/-- With a positive rate and a well-formed state, `squeeze_field_elements(1)`
returns exactly one field element. -/
theorem squeezeFieldElements_one_length (sp : PoseidonSponge F)
    (hrate : 0 < sp.parameters.rate)
    (hst : sp.state.length = sp.parameters.capacity + sp.parameters.rate)
    (hperm : ∀ l, (sp.parameters.perm l).length = l.length) :
    (sp.squeezeFieldElements 1).1.length = 1 := by
  unfold PoseidonSponge.squeezeFieldElements
  cases hm : sp.mode with
  | absorbing next =>
    exact squeezeInternalAux_one_length sp.parameters hrate hperm _ 0
      (by rw [hperm, hst])
  | squeezing next =>
    by_cases he : next = sp.parameters.rate
    · simp only [if_pos he]
      exact squeezeInternalAux_one_length sp.parameters hrate hperm _ 0
        (by rw [hperm, hst])
    · simp only [if_neg he]
      exact squeezeInternalAux_one_length sp.parameters hrate hperm _ next hst

end SpongeLemmas

section ByteLemmas

/-- Little-endian base-256 serialization round-trips on values. -/
theorem bytesLEToNat_natToBytesLEAux :
    ∀ (fuel n : Nat), n ≤ fuel → bytesLEToNat (natToBytesLEAux fuel n) = n := by
  intro fuel
  induction fuel with
  | zero =>
    intro n hn
    have : n = 0 := Nat.le_zero.mp hn
    subst this; rfl
  | succ fuel ih =>
    intro n hn
    cases n with
    | zero => rfl
    | succ m =>
      have h1 : (m + 1) / 256 ≤ fuel := by
        have := Nat.div_lt_self (Nat.succ_pos m) (by norm_num : 1 < 256)
        omega
      show (m + 1) % 256 + 256 * bytesLEToNat (natToBytesLEAux fuel ((m + 1) / 256)) = m + 1
      rw [ih _ h1]
      exact Nat.mod_add_div (m + 1) 256

/-- The `prepare_point` coordinate encoding — bigint, little-endian bytes,
reinterpretation modulo the scalar-field modulus — equals the direct
reduction of the coordinate's canonical value. -/
theorem coordToScalar_eq (pS : Nat) {pB : Nat} (b : ZMod pB) :
    coordToScalar pS b = ((ZMod.val b : Nat) : ZMod pS) := by
  unfold coordToScalar natToBytesLE
  rw [bytesLEToNat_natToBytesLEAux _ _ le_rfl]

end ByteLemmas

section TranscriptLemmas

variable {F : Type} [CommRing F] {Cg Bf : Type}
variable {xy : Cg → Option (Bf × Bf)} {enc : Bf → F}

/-- The Fiat-Shamir run succeeds as soon as the point absorbs. -/
theorem transcriptChallenge_of_absorb {t : PoseidonSponge F} {cm r_h : F} {R : Cg}
    {t2 : PoseidonSponge F}
    (h : (t.absorb [cm]).absorbPoint xy enc R = some t2) :
    transcriptChallenge xy enc t cm R r_h = some ((t2.absorb [r_h]).getChallenge) := by
  unfold transcriptChallenge
  rw [h]

/-- The re-derived challenge, given a successful point absorb. -/
theorem reDerivedChallenge_of_absorb {t : PoseidonSponge F} {cm r_h : F} {R : Cg}
    {t2 : PoseidonSponge F}
    (h : (t.absorb [cm]).absorbPoint xy enc R = some t2) :
    reDerivedChallenge xy enc t cm R r_h = some (((t2.absorb [r_h]).getChallenge).1) := by
  unfold reDerivedChallenge
  rw [transcriptChallenge_of_absorb h]

/-- Inversion: a successful re-derived challenge comes from a successful
point absorb followed by the challenge squeeze. -/
theorem reDerivedChallenge_some_elim {t : PoseidonSponge F} {cm r_h c : F} {R : Cg}
    (hc : reDerivedChallenge xy enc t cm R r_h = some c) :
    ∃ t2, (t.absorb [cm]).absorbPoint xy enc R = some t2
      ∧ (((t2.absorb [r_h]).getChallenge).1) = c := by
  cases habs : (t.absorb [cm]).absorbPoint xy enc R with
  | none =>
    unfold reDerivedChallenge transcriptChallenge at hc
    rw [habs] at hc
    cases hc
  | some t2 =>
    rw [reDerivedChallenge_of_absorb habs] at hc
    exact ⟨t2, rfl, by injection hc⟩

end TranscriptLemmas

section ProtocolLemmas

variable {F Cg Bf Pk Vk Zk Rand : Type}
variable [CommRing F] [DecidableEq F] [AddCommGroup Cg] [DecidableEq Cg] [Module F Cg]
variable {ctx : SigmabusCtx F Cg Bf Pk Vk Zk Rand} {params : Params F Pk Vk}
variable {t : PoseidonSponge F}

/-- Inversion for `Sigmabus.prove`: whenever it returns a value, the value
is `Ok` of the honestly assembled proof, the point absorb succeeded, and
the backend produced the Groth16 proof for the honest circuit. -/
theorem prove_some_elim {x r o_h : F} {rho : Rand} {res : Except Error (Proof F Cg Zk)}
    (h : Sigmabus.prove ctx params t x r o_h rho = some res) :
    ∃ t2 zkp,
      (t.absorb [crh params.poseidonConfig [x]]).absorbPoint ctx.xy ctx.enc (r • ctx.G)
        = some t2
      ∧ ctx.gprove params.pk
          ⟨params.poseidonConfig, crh params.poseidonConfig [x],
            r + (((t2.absorb [crh params.poseidonConfig [r, o_h]]).getChallenge).1) * x,
            crh params.poseidonConfig [r, o_h],
            ((t2.absorb [crh params.poseidonConfig [r, o_h]]).getChallenge).1,
            x, r, o_h⟩ rho = some zkp
      ∧ res = Except.ok
          ⟨crh params.poseidonConfig [x],
           ⟨r + (((t2.absorb [crh params.poseidonConfig [r, o_h]]).getChallenge).1) * x,
            r • ctx.G, crh params.poseidonConfig [r, o_h]⟩, zkp⟩ := by
  simp only [Sigmabus.prove] at h
  split at h
  next habs => exact absurd h (by simp)
  next t2 habs =>
    split at h
    next hzk => exact absurd h (by simp)
    next zkp hzk =>
      refine ⟨t2, zkp, habs, hzk, ?_⟩
      injection h with h'
      exact h'.symm

/-- `Sigmabus.verify` aborts when the proof's `R` has no affine
coordinates. -/
theorem verify_none_of_absorb {proof : Proof F Cg Zk} {X : Cg}
    (habs : (t.absorb [proof.cm]).absorbPoint ctx.xy ctx.enc proof.sigmaProof.R = none) :
    Sigmabus.verify ctx params t proof X = none := by
  simp only [Sigmabus.verify, habs]

/-- Evaluation of `Sigmabus.verify` once the point absorb succeeds. -/
theorem verify_eq_of_absorb {proof : Proof F Cg Zk} {X : Cg} {t2 : PoseidonSponge F}
    (habs : (t.absorb [proof.cm]).absorbPoint ctx.xy ctx.enc proof.sigmaProof.R = some t2) :
    Sigmabus.verify ctx params t proof X =
      (if proof.sigmaProof.s • ctx.G ≠ proof.sigmaProof.R
            + (((t2.absorb [proof.sigmaProof.r_h]).getChallenge).1) • X
       then some (Except.error Error.sigmaFail)
       else
        match ctx.gverify params.vk
            (sigmabusPublicInput proof (((t2.absorb [proof.sigmaProof.r_h]).getChallenge).1))
            proof.zkproof with
        | none => none
        | some valid => if valid = false then some (Except.error Error.genZKFail)
          else some (Except.ok ())) := by
  simp only [Sigmabus.verify, habs]

end ProtocolLemmas

/-! ## Claims -/

section Claims

variable {F Cg Bf Pk Vk Zk Rand : Type}
variable [CommRing F] [DecidableEq F] [AddCommGroup Cg] [DecidableEq Cg] [Module F Cg]

/-- **C3**: every proof returned by `Prove` satisfies the honest-proof
invariants: `cm = Hash1(x)`; `R = r·G`; `r_h = Hash2(r, o_h)` for the
sampled `r`, `o_h`; and `s = r + c·x` where `c` is the transcript's
challenge output after absorbing `cm`, then `R`, then `r_h`, in that
exact order. -/
theorem C3_honest_proof_invariants
    (ctx : SigmabusCtx F Cg Bf Pk Vk Zk Rand) (params : Params F Pk Vk)
    (t : PoseidonSponge F) (x r o_h : F) (rho : Rand) (p : Proof F Cg Zk)
    (hprove : Sigmabus.prove ctx params t x r o_h rho = some (Except.ok p)) :
    p.cm = crh params.poseidonConfig [x]
    ∧ p.sigmaProof.R = r • ctx.G
    ∧ p.sigmaProof.r_h = crh params.poseidonConfig [r, o_h]
    ∧ ∃ c, reDerivedChallenge ctx.xy ctx.enc t p.cm p.sigmaProof.R p.sigmaProof.r_h = some c
        ∧ p.sigmaProof.s = r + c * x := by
  obtain ⟨t2, zkp, habs, hzk, hres⟩ := prove_some_elim hprove
  injection hres with hres
  subst hres
  refine ⟨rfl, rfl, rfl, ⟨_, reDerivedChallenge_of_absorb habs, rfl⟩⟩

/-- **C4**: the GenZK constraint system instantiated with public values
`(cm, s, r_h, c)` and private values `(x, r, o_h)` is satisfiable iff
`cm = Hash1(x)`, `r_h = Hash2(r, o_h)` and `s = r + c·x` hold exactly,
with `Hash1`/`Hash2` the Poseidon CRH over one and two field elements. -/
theorem C4_genzk_satisfiable_iff_relation (circ : GenZKCircuit F) :
    (GenZKCircuit.generateConstraints circ).satisfied = true ↔
      genZKRelationSpec circ.poseidonConfig circ.cm circ.s circ.r_h circ.c
        circ.x circ.r circ.o_h := by
  simp only [GenZKCircuit.generateConstraints, GenZKCircuit.check,
    ConstraintTrace.satisfied, genZKRelationSpec, List.all_cons, List.all_nil,
    Bool.and_true, Bool.and_eq_true, decide_eq_true_eq]
  constructor
  · rintro ⟨h1, h2, h3⟩; exact ⟨h1.symm, h2.symm, h3⟩
  · rintro ⟨h1, h2, h3⟩; exact ⟨h1.symm, h2.symm, h3⟩

/-- **C5**: `get_challenge` squeezes exactly one field element `c` from
the sponge, then absorbs `c` back before returning it; the sponge state
after `get_challenge` differs from the state just after the squeeze. -/
theorem C5_getChallenge_squeeze_then_absorb (t : PoseidonSponge F)
    (hrate : 0 < t.parameters.rate)
    (hst : t.state.length = t.parameters.capacity + t.parameters.rate)
    (hperm : ∀ l, (t.parameters.perm l).length = l.length) :
    (t.squeezeFieldElements 1).1.length = 1
    ∧ t.getChallenge
        = ((t.squeezeFieldElements 1).1.headD 0,
           (t.squeezeFieldElements 1).2.absorb [(t.squeezeFieldElements 1).1.headD 0])
    ∧ (t.squeezeFieldElements 1).2.absorb [(t.squeezeFieldElements 1).1.headD 0]
        ≠ (t.squeezeFieldElements 1).2 := by
  refine ⟨squeezeFieldElements_one_length t hrate hst hperm, rfl, ?_⟩
  intro hcontra
  obtain ⟨i, hi⟩ := absorb_mode (t.squeezeFieldElements 1).2
    [(t.squeezeFieldElements 1).1.headD 0] (by simp)
  obtain ⟨j, hj⟩ := squeezeFieldElements_mode t 1
  rw [hcontra] at hi
  rw [hi] at hj
  cases hj

/-- **C9**: whenever `Prove` returns a value, that value is `Ok(proof)`:
the typed verification errors `SigmaFail`/`GenZKFail` are never produced
by the prover; its only other behavior is the modelled abort (`none`) on
an internal primitive/backend failure. -/
theorem C9_prove_never_returns_error
    (ctx : SigmabusCtx F Cg Bf Pk Vk Zk Rand) (params : Params F Pk Vk)
    (t : PoseidonSponge F) (x r o_h : F) (rho : Rand)
    (res : Except Error (Proof F Cg Zk))
    (h : Sigmabus.prove ctx params t x r o_h rho = some res) :
    (∃ p, res = Except.ok p) ∧ ∀ e : Error, res ≠ Except.error e := by
  obtain ⟨t2, zkp, habs, hzk, hres⟩ := prove_some_elim h
  subst hres
  exact ⟨⟨_, rfl⟩, fun e hcontra => by cases hcontra⟩

/-- **C10**: `absorb_point` is partial at the group identity: at the point
at infinity the affine extraction yields nothing and the code aborts
(`xy().unwrap()`), so `Prove` with sampled `r = 0` and `Verify` on a
proof whose `R` is the identity abort as well; for every non-identity
point the error branch is unreachable. -/
theorem C10_absorbPoint_partial_at_identity
    (ctx : SigmabusCtx F Cg Bf Pk Vk Zk Rand)
    (hxy : ∀ q : Cg, ctx.xy q = none ↔ q = 0) :
    (∀ t : PoseidonSponge F, PoseidonSponge.absorbPoint ctx.xy ctx.enc t 0 = none)
    ∧ (∀ (params : Params F Pk Vk) (t : PoseidonSponge F) (x o_h : F) (rho : Rand),
        Sigmabus.prove ctx params t x 0 o_h rho = none)
    ∧ (∀ (params : Params F Pk Vk) (t : PoseidonSponge F) (pf : Proof F Cg Zk) (X : Cg),
        pf.sigmaProof.R = 0 → Sigmabus.verify ctx params t pf X = none)
    ∧ (∀ p : Cg, p ≠ 0 → ∀ t : PoseidonSponge F,
        ∃ t2, PoseidonSponge.absorbPoint ctx.xy ctx.enc t p = some t2) := by
  have habs0 : ∀ t : PoseidonSponge F,
      PoseidonSponge.absorbPoint ctx.xy ctx.enc t 0 = none := by
    intro t
    unfold PoseidonSponge.absorbPoint preparePoint
    rw [(hxy 0).mpr rfl]
  refine ⟨habs0, ?_, ?_, ?_⟩
  · intro params t x o_h rho
    simp only [Sigmabus.prove, zero_smul, habs0]
  · intro params t pf X hR
    apply verify_none_of_absorb
    rw [hR]
    exact habs0 _
  · intro p hp t
    cases hq : ctx.xy p with
    | none => exact absurd ((hxy p).mp hq) hp
    | some q =>
      refine ⟨t.absorb [ctx.enc q.1, ctx.enc q.2], ?_⟩
      unfold PoseidonSponge.absorbPoint preparePoint
      rw [hq]

end Claims

section ClaimsMain

variable {F Cg Bf Pk Vk Zk Rand : Type}
variable [CommRing F] [DecidableEq F] [AddCommGroup Cg] [DecidableEq Cg] [Module F Cg]

/-- **C1** (completeness): if `Setup` produced `Params` from a
`HashConfig`, the Groth16 backend is complete for the generated key pair,
and `Prove` over a fresh transcript on that config returned a proof for
`x`, then `Verify` over another fresh transcript on the same config
accepts that proof for `X = x·G`. -/
theorem C1_completeness
    (ctx : SigmabusCtx F Cg Bf Pk Vk Zk Rand) (cfg : PoseidonConfig F)
    (params : Params F Pk Vk) (x r o_h : F) (rho : Rand) (p : Proof F Cg Zk)
    (hsetup : Sigmabus.setup ctx cfg = some params)
    (hcomplete : ∀ (circ : GenZKCircuit F) (rho2 : Rand) (zkp : Zk),
      ctx.gprove params.pk circ rho2 = some zkp →
      (GenZKCircuit.generateConstraints circ).satisfied = true →
      ctx.gverify params.vk (GenZKCircuit.generateConstraints circ).publicInputs zkp
        = some true)
    (hprove : Sigmabus.prove ctx params (PoseidonSponge.new cfg) x r o_h rho
        = some (Except.ok p)) :
    Sigmabus.verify ctx params (PoseidonSponge.new cfg) p (x • ctx.G)
      = some (Except.ok ()) := by
  obtain ⟨t2, zkp, habs, hzk, hres⟩ := prove_some_elim hprove
  injection hres with hres
  subst hres
  rw [verify_eq_of_absorb habs]
  have heq : (r + ((t2.absorb [crh params.poseidonConfig [r, o_h]]).getChallenge).1 * x)
        • ctx.G
      = r • ctx.G
        + ((t2.absorb [crh params.poseidonConfig [r, o_h]]).getChallenge).1 • x • ctx.G := by
    rw [add_smul, mul_smul]
  rw [if_neg (not_not_intro heq)]
  have hver := hcomplete _ rho zkp hzk (by
    simp [GenZKCircuit.generateConstraints, GenZKCircuit.check, ConstraintTrace.satisfied])
  simp only [GenZKCircuit.generateConstraints] at hver
  simp only [sigmabusPublicInput]
  rw [hver]
  simp

/-- **C2** (error taxonomy): when the verifier's transcript re-derives
challenge `c` from the proof's public fields and the backend answers `b`
on `[cm, s, r_h, c]`, `Verify` returns `SigmaFail` iff `s·G ≠ R + c·X`,
returns `GenZKFail` iff `s·G = R + c·X` and `b = false`, and returns `Ok`
otherwise; the Sigma check runs before the SNARK check (on a sigma
mismatch the backend is never consulted), and the two failures are
distinct errors. -/
theorem C2_verify_error_taxonomy
    (ctx : SigmabusCtx F Cg Bf Pk Vk Zk Rand) (params : Params F Pk Vk)
    (t : PoseidonSponge F) (proof : Proof F Cg Zk) (X : Cg) (c : F) (b : Bool)
    (hrun : reDerivedChallenge ctx.xy ctx.enc t proof.cm proof.sigmaProof.R
        proof.sigmaProof.r_h = some c)
    (hb : ctx.gverify params.vk (sigmabusPublicInput proof c) proof.zkproof = some b) :
    (Sigmabus.verify ctx params t proof X = some (Except.error Error.sigmaFail)
      ↔ proof.sigmaProof.s • ctx.G ≠ proof.sigmaProof.R + c • X)
    ∧ (Sigmabus.verify ctx params t proof X = some (Except.error Error.genZKFail)
      ↔ proof.sigmaProof.s • ctx.G = proof.sigmaProof.R + c • X ∧ b = false)
    ∧ (Sigmabus.verify ctx params t proof X = some (Except.ok ())
      ↔ proof.sigmaProof.s • ctx.G = proof.sigmaProof.R + c • X ∧ b = true)
    ∧ (proof.sigmaProof.s • ctx.G ≠ proof.sigmaProof.R + c • X →
        ∀ g' : Vk → List F → Zk → Option Bool,
          Sigmabus.verify { ctx with gverify := g' } params t proof X
            = some (Except.error Error.sigmaFail))
    ∧ Error.sigmaFail ≠ Error.genZKFail := by
  obtain ⟨t2, habs, hc⟩ := reDerivedChallenge_some_elim hrun
  have hgmod : ∀ g' : Vk → List F → Zk → Option Bool,
      Sigmabus.verify { ctx with gverify := g' } params t proof X =
        (if proof.sigmaProof.s • ctx.G ≠ proof.sigmaProof.R + c • X
         then some (Except.error Error.sigmaFail)
         else
          match g' params.vk (sigmabusPublicInput proof c) proof.zkproof with
          | none => none
          | some valid => if valid = false then some (Except.error Error.genZKFail)
            else some (Except.ok ())) := by
    intro g'
    have habs' : (t.absorb [proof.cm]).absorbPoint
        (SigmabusCtx.xy { ctx with gverify := g' })
        (SigmabusCtx.enc { ctx with gverify := g' }) proof.sigmaProof.R = some t2 := habs
    rw [verify_eq_of_absorb habs', hc]
  by_cases hsig : proof.sigmaProof.s • ctx.G = proof.sigmaProof.R + c • X
  · cases b with
    | false =>
      have hval : Sigmabus.verify ctx params t proof X
          = some (Except.error Error.genZKFail) := by
        rw [verify_eq_of_absorb habs, hc, hb, if_neg (not_not_intro hsig)]
        simp
      refine ⟨by simp [hval, hsig], by simp [hval, hsig], by simp [hval],
        fun hcon => absurd hsig hcon, by simp⟩
    | true =>
      have hval : Sigmabus.verify ctx params t proof X = some (Except.ok ()) := by
        rw [verify_eq_of_absorb habs, hc, hb, if_neg (not_not_intro hsig)]
        simp
      refine ⟨by simp [hval, hsig], by simp [hval, hsig], by simp [hval, hsig],
        fun hcon => absurd hsig hcon, by simp⟩
  · have hval : Sigmabus.verify ctx params t proof X
        = some (Except.error Error.sigmaFail) := by
      rw [verify_eq_of_absorb habs, hc, if_pos hsig]
    refine ⟨by simp [hval, hsig], by simp [hval, hsig], by simp [hval, hsig],
      fun _ g' => by rw [hgmod g', if_pos hsig], by simp⟩

end ClaimsMain

section ClaimsMain2

variable {F Cg Bf Pk Vk Zk Rand : Type}
variable [CommRing F] [DecidableEq F] [AddCommGroup Cg] [DecidableEq Cg] [Module F Cg]

/-- **C7**: the public-input vector `Verify` hands to the backend is
exactly `[cm, s, r_h, c]`, this is exactly the order in which the circuit
allocates its public inputs, and `Verify`'s result depends on the backend
only through its answer on exactly that vector. -/
theorem C7_public_input_order
    (ctx : SigmabusCtx F Cg Bf Pk Vk Zk Rand) (params : Params F Pk Vk)
    (t : PoseidonSponge F) (proof : Proof F Cg Zk) (X : Cg) (c : F)
    (hrun : reDerivedChallenge ctx.xy ctx.enc t proof.cm proof.sigmaProof.R
        proof.sigmaProof.r_h = some c) :
    sigmabusPublicInput proof c
        = [proof.cm, proof.sigmaProof.s, proof.sigmaProof.r_h, c]
    ∧ (∀ (cfg' : PoseidonConfig F) (x r o_h : F),
        (GenZKCircuit.generateConstraints
            ⟨cfg', proof.cm, proof.sigmaProof.s, proof.sigmaProof.r_h, c,
              x, r, o_h⟩).publicInputs
          = sigmabusPublicInput proof c)
    ∧ (∀ g1 g2 : Vk → List F → Zk → Option Bool,
        g1 params.vk (sigmabusPublicInput proof c) proof.zkproof
          = g2 params.vk (sigmabusPublicInput proof c) proof.zkproof →
        Sigmabus.verify { ctx with gverify := g1 } params t proof X
          = Sigmabus.verify { ctx with gverify := g2 } params t proof X) := by
  obtain ⟨t2, habs, hc⟩ := reDerivedChallenge_some_elim hrun
  refine ⟨rfl, fun cfg' x r o_h => rfl, fun g1 g2 hg => ?_⟩
  have habs1 : (t.absorb [proof.cm]).absorbPoint
      (SigmabusCtx.xy { ctx with gverify := g1 })
      (SigmabusCtx.enc { ctx with gverify := g1 }) proof.sigmaProof.R = some t2 := habs
  have habs2 : (t.absorb [proof.cm]).absorbPoint
      (SigmabusCtx.xy { ctx with gverify := g2 })
      (SigmabusCtx.enc { ctx with gverify := g2 }) proof.sigmaProof.R = some t2 := habs
  have h1 : Sigmabus.verify { ctx with gverify := g1 } params t proof X =
      (if proof.sigmaProof.s • ctx.G ≠ proof.sigmaProof.R + c • X
       then some (Except.error Error.sigmaFail)
       else match g1 params.vk (sigmabusPublicInput proof c) proof.zkproof with
         | none => none
         | some valid => if valid = false then some (Except.error Error.genZKFail)
           else some (Except.ok ())) := by
    rw [verify_eq_of_absorb habs1, hc]
  have h2 : Sigmabus.verify { ctx with gverify := g2 } params t proof X =
      (if proof.sigmaProof.s • ctx.G ≠ proof.sigmaProof.R + c • X
       then some (Except.error Error.sigmaFail)
       else match g2 params.vk (sigmabusPublicInput proof c) proof.zkproof with
         | none => none
         | some valid => if valid = false then some (Except.error Error.genZKFail)
           else some (Except.ok ())) := by
    rw [verify_eq_of_absorb habs2, hc]
  rw [h1, h2]
  by_cases hsig : proof.sigmaProof.s • ctx.G = proof.sigmaProof.R + c • X
  · rw [if_neg (not_not_intro hsig), if_neg (not_not_intro hsig), hg]
  · rw [if_pos hsig, if_pos hsig]

/-- **C8** (amended): for every honestly produced proof and every
`X' ≠ x·G`, `Verify` rejects with `SigmaFail` — provided the re-derived
challenge `c` is nonzero (when `c = 0` the Sigma equation degenerates and
the verifier accepts any `X'`, see the counterexample). -/
theorem C8_rejects_wrong_statement_of_nonzero_challenge
    [NoZeroSMulDivisors F Cg]
    (ctx : SigmabusCtx F Cg Bf Pk Vk Zk Rand) (params : Params F Pk Vk)
    (x r o_h : F) (rho : Rand) (p : Proof F Cg Zk) (X' : Cg) (c : F)
    (hprove : Sigmabus.prove ctx params (PoseidonSponge.new params.poseidonConfig)
        x r o_h rho = some (Except.ok p))
    (hrun : reDerivedChallenge ctx.xy ctx.enc (PoseidonSponge.new params.poseidonConfig)
        p.cm p.sigmaProof.R p.sigmaProof.r_h = some c)
    (hc : c ≠ 0) (hX : X' ≠ x • ctx.G) :
    Sigmabus.verify ctx params (PoseidonSponge.new params.poseidonConfig) p X'
      = some (Except.error Error.sigmaFail) := by
  obtain ⟨t2, zkp, habs, hzk, hres⟩ := prove_some_elim hprove
  injection hres with hres
  subst hres
  rw [reDerivedChallenge_of_absorb habs] at hrun
  injection hrun with hrun
  rw [verify_eq_of_absorb habs]
  show (if (r + ((t2.absorb [crh params.poseidonConfig [r, o_h]]).getChallenge).1 * x)
          • ctx.G
        ≠ r • ctx.G
          + ((t2.absorb [crh params.poseidonConfig [r, o_h]]).getChallenge).1 • X'
      then some (Except.error Error.sigmaFail) else _)
      = some (Except.error Error.sigmaFail)
  rw [hrun]
  have hne : ¬ ((r + c * x) • ctx.G = r • ctx.G + c • X') := by
    intro hcontra
    rw [add_smul, mul_smul] at hcontra
    have h2 := add_left_cancel hcontra
    have h3 : c • (x • ctx.G - X') = 0 := by
      rw [smul_sub, h2, sub_self]
    rcases smul_eq_zero.mp h3 with h4 | h4
    · exact hc h4
    · exact hX (sub_eq_zero.mp h4).symm
  rw [if_pos hne]

end ClaimsMain2

/-- **C6**: for every group element accepted by `absorb_point`, the
absorbed encoding is exactly the two field elements obtained from its
affine coordinates by the bigint/little-endian-bytes/mod-order chain;
that chain equals direct reduction of the coordinate's canonical value,
and the same group element (same affine coordinates) always yields the
same pair. -/
theorem C6_point_encoding {pS pB : Nat} {Cg : Type}
    (xy : Cg → Option (ZMod pB × ZMod pB)) (p : Cg) (px py : ZMod pB)
    (hp : xy p = some (px, py)) :
    preparePoint xy (coordToScalar pS) p
        = some [coordToScalar pS px, coordToScalar pS py]
    ∧ coordToScalar pS px = ((ZMod.val px : Nat) : ZMod pS)
    ∧ coordToScalar pS py = ((ZMod.val py : Nat) : ZMod pS)
    ∧ (∀ t : PoseidonSponge (ZMod pS),
        PoseidonSponge.absorbPoint xy (coordToScalar pS) t p
          = some (t.absorb [coordToScalar pS px, coordToScalar pS py]))
    ∧ (∀ q : Cg, xy q = xy p →
        preparePoint xy (coordToScalar pS) q = preparePoint xy (coordToScalar pS) p) := by
  have h1 : preparePoint xy (coordToScalar pS) p
      = some [coordToScalar pS px, coordToScalar pS py] := by
    unfold preparePoint
    rw [hp]
  refine ⟨h1, coordToScalar_eq pS px, coordToScalar_eq pS py, ?_, ?_⟩
  · intro t
    unfold PoseidonSponge.absorbPoint
    rw [h1]
  · intro q hq
    unfold preparePoint
    rw [hq]

/-! ## Witnesses and counterexamples at the concrete instance -/

instance : Fact (Nat.Prime 5) := ⟨by norm_num⟩

/-- Witness for C1: over the identity-permutation config with
`x = 2, r = 1, o_h = 3`, prove-then-verify succeeds on `X = 2·G`. -/
theorem C1_witness :
    Sigmabus.verify Inst.ctx5 Inst.params5 (PoseidonSponge.new Inst.cfgId) Inst.w1
      ((2 : ZMod 5) • Inst.ctx5.G) = some (Except.ok ()) :=
  C1_completeness Inst.ctx5 Inst.cfgId Inst.params5 2 1 3 () Inst.w1 rfl
    (fun _ _ _ _ _ => rfl) (by decide)

/-- Witness for C2: the acceptance branch of the taxonomy, instantiated
with the honest proof `w1`, challenge `3`, backend answer `true`. -/
theorem C2_witness :
    (Sigmabus.verify Inst.ctx5 Inst.params5 (PoseidonSponge.new Inst.cfgId) Inst.w1
        ((2 : ZMod 5) • Inst.ctx5.G) = some (Except.ok ())
      ↔ Inst.w1.sigmaProof.s • Inst.ctx5.G
          = Inst.w1.sigmaProof.R + (3 : ZMod 5) • ((2 : ZMod 5) • Inst.ctx5.G)
        ∧ true = true) :=
  (C2_verify_error_taxonomy Inst.ctx5 Inst.params5 (PoseidonSponge.new Inst.cfgId)
    Inst.w1 ((2 : ZMod 5) • Inst.ctx5.G) 3 true (by decide) rfl).2.2.1

/-- Witness for C3: the honest-proof invariants hold for the concrete run
with `x = 2, r = 1, o_h = 3`. -/
theorem C3_witness :
    Inst.w1.cm = crh Inst.params5.poseidonConfig [2]
    ∧ Inst.w1.sigmaProof.R = (1 : ZMod 5) • Inst.ctx5.G
    ∧ Inst.w1.sigmaProof.r_h = crh Inst.params5.poseidonConfig [1, 3]
    ∧ ∃ c, reDerivedChallenge Inst.ctx5.xy Inst.ctx5.enc (PoseidonSponge.new Inst.cfgId)
          Inst.w1.cm Inst.w1.sigmaProof.R Inst.w1.sigmaProof.r_h = some c
        ∧ Inst.w1.sigmaProof.s = 1 + c * 2 :=
  C3_honest_proof_invariants Inst.ctx5 Inst.params5 (PoseidonSponge.new Inst.cfgId)
    2 1 3 () Inst.w1 (by decide)

/-- Witness for C5 on a fresh sponge over the identity-permutation
config. -/
theorem C5_witness :
    ((PoseidonSponge.new Inst.cfgId).squeezeFieldElements 1).1.length = 1
    ∧ (PoseidonSponge.new Inst.cfgId).getChallenge
        = (((PoseidonSponge.new Inst.cfgId).squeezeFieldElements 1).1.headD 0,
           ((PoseidonSponge.new Inst.cfgId).squeezeFieldElements 1).2.absorb
             [((PoseidonSponge.new Inst.cfgId).squeezeFieldElements 1).1.headD 0])
    ∧ ((PoseidonSponge.new Inst.cfgId).squeezeFieldElements 1).2.absorb
          [((PoseidonSponge.new Inst.cfgId).squeezeFieldElements 1).1.headD 0]
        ≠ ((PoseidonSponge.new Inst.cfgId).squeezeFieldElements 1).2 :=
  C5_getChallenge_squeeze_then_absorb (PoseidonSponge.new Inst.cfgId) (by decide)
    (by decide) (fun _ => rfl)

/-- Witness for C6 at the non-identity point `1` with coordinates
`(1, 1)` in the base field. -/
theorem C6_witness :
    preparePoint Inst.xy5 (coordToScalar 5) (1 : ZMod 5)
        = some [coordToScalar 5 (1 : ZMod 7), coordToScalar 5 (1 : ZMod 7)]
    ∧ coordToScalar 5 (1 : ZMod 7) = ((ZMod.val (1 : ZMod 7) : Nat) : ZMod 5)
    ∧ coordToScalar 5 (1 : ZMod 7) = ((ZMod.val (1 : ZMod 7) : Nat) : ZMod 5)
    ∧ (∀ t : PoseidonSponge (ZMod 5),
        PoseidonSponge.absorbPoint Inst.xy5 (coordToScalar 5) t (1 : ZMod 5)
          = some (t.absorb [coordToScalar 5 (1 : ZMod 7), coordToScalar 5 (1 : ZMod 7)]))
    ∧ (∀ q : ZMod 5, Inst.xy5 q = Inst.xy5 1 →
        preparePoint Inst.xy5 (coordToScalar 5) q
          = preparePoint Inst.xy5 (coordToScalar 5) 1) :=
  C6_point_encoding Inst.xy5 1 1 1 (by decide)

/-- Witness for C7 with the honest proof `w1` and challenge `3`. -/
theorem C7_witness :
    sigmabusPublicInput Inst.w1 3
        = [Inst.w1.cm, Inst.w1.sigmaProof.s, Inst.w1.sigmaProof.r_h, 3]
    ∧ (∀ (cfg' : PoseidonConfig (ZMod 5)) (x r o_h : ZMod 5),
        (GenZKCircuit.generateConstraints
            ⟨cfg', Inst.w1.cm, Inst.w1.sigmaProof.s, Inst.w1.sigmaProof.r_h, 3,
              x, r, o_h⟩).publicInputs
          = sigmabusPublicInput Inst.w1 3)
    ∧ (∀ g1 g2 : Unit → List (ZMod 5) → Unit → Option Bool,
        g1 Inst.params5.vk (sigmabusPublicInput Inst.w1 3) Inst.w1.zkproof
          = g2 Inst.params5.vk (sigmabusPublicInput Inst.w1 3) Inst.w1.zkproof →
        Sigmabus.verify { Inst.ctx5 with gverify := g1 } Inst.params5
            (PoseidonSponge.new Inst.cfgId) Inst.w1 (2 : ZMod 5)
          = Sigmabus.verify { Inst.ctx5 with gverify := g2 } Inst.params5
            (PoseidonSponge.new Inst.cfgId) Inst.w1 (2 : ZMod 5)) :=
  C7_public_input_order Inst.ctx5 Inst.params5 (PoseidonSponge.new Inst.cfgId) Inst.w1
    (2 : ZMod 5) 3 (by decide)

/-- Witness for the amended C8: with challenge `3 ≠ 0`, the honest proof
for `x = 2` is rejected (with `SigmaFail`) at the wrong statement
`X' = 3 ≠ 2·G`. -/
theorem C8_witness :
    Sigmabus.verify Inst.ctx5 Inst.params5
        (PoseidonSponge.new Inst.params5.poseidonConfig) Inst.w1 (3 : ZMod 5)
      = some (Except.error Error.sigmaFail) :=
  C8_rejects_wrong_statement_of_nonzero_challenge Inst.ctx5 Inst.params5 2 1 3 ()
    Inst.w1 3 3 (by decide) (by decide) (by decide) (by decide)

/-- Counterexample to C8 as stated: over the zero-permutation config the
re-derived challenge is `0`; the proof honestly produced by `Prove` for
`x = 1` is accepted by `Verify` at the wrong statement `X' = 2 ≠ 1·G`
(the Groth16 backend accepts as well, by completeness, since the SNARK
public inputs `[cm, s, r_h, c]` do not involve `X'`). -/
theorem C8_counterexample :
    Sigmabus.prove Inst.ctx5 Inst.params5zero (PoseidonSponge.new Inst.cfgZero) 1 1 0 ()
        = some (Except.ok Inst.cexProof)
    ∧ (2 : ZMod 5) ≠ (1 : ZMod 5) • Inst.ctx5.G
    ∧ Sigmabus.verify Inst.ctx5 Inst.params5zero (PoseidonSponge.new Inst.cfgZero)
        Inst.cexProof (2 : ZMod 5) = some (Except.ok ()) :=
  ⟨by decide, by decide, by decide⟩

/-- Witness for C9 on the concrete honest run. -/
theorem C9_witness :
    (∃ p, (Except.ok Inst.w1 : Except Error (Proof (ZMod 5) (ZMod 5) Unit))
        = Except.ok p)
    ∧ ∀ e : Error, (Except.ok Inst.w1 : Except Error (Proof (ZMod 5) (ZMod 5) Unit))
        ≠ Except.error e :=
  C9_prove_never_returns_error Inst.ctx5 Inst.params5 (PoseidonSponge.new Inst.cfgId)
    2 1 3 () (Except.ok Inst.w1) (by decide)

/-- Witness for C10: the identity point aborts `absorb_point`, and `Prove`
with `r = 0` aborts. -/
theorem C10_witness :
    PoseidonSponge.absorbPoint Inst.ctx5.xy Inst.ctx5.enc
        (PoseidonSponge.new Inst.cfgId) (0 : ZMod 5) = none
    ∧ Sigmabus.prove Inst.ctx5 Inst.params5 (PoseidonSponge.new Inst.cfgId) 2 0 3 ()
        = none := by
  have h := @C10_absorbPoint_partial_at_identity (ZMod 5) (ZMod 5) (ZMod 7)
    Unit Unit Unit Unit _ _ _ _ _ Inst.ctx5 (by decide)
  exact ⟨h.1 (PoseidonSponge.new Inst.cfgId),
    h.2.1 Inst.params5 (PoseidonSponge.new Inst.cfgId) 2 3 ()⟩
